import Mathlib

/-!
Verification of the Nautilus AUV onboard control core (`auv.py`,
`auv_send_ping.py`, `constants.py`) against its natural-language
specification.

The main loop of `AUV.main_loop` is embedded as a pure step function on an
explicit state record; quantities the loop obtains from the environment
(the clock, the frames read from the radio, the pressure reading, whether an
I/O exception interrupts the session) are passed as explicit inputs.  Side
effects on external collaborators (the motor controller, the radio link, the
mission hooks) are recorded as an event list.  Real arithmetic from the
Python source is modelled exactly over `ℚ`; Python's `round(·, 1)` is
modelled as round-half-to-even on the exact rational value.
-/

set_option maxRecDepth 8000

namespace Nautilus

/-! ### Constants (`auv.py` lines 22-40) -/

/-- The one-byte heartbeat value written by the main loop (`auv.py` line 169). -/
def PING_BYTE : ℕ := 0xFF

/-- The three-byte base-station ping frame recognised on read
(`auv.py` line 242). -/
def BS_PING : ℕ := 0xFFFFFF

/-- `THREAD_SLEEP_DELAY = 0.05` (`auv.py` line 23). -/
def THREAD_SLEEP_DELAY : ℚ := 0.05

/-- `CONNECTION_TIMEOUT = 3` (`auv.py` line 24). -/
def CONNECTION_TIMEOUT : ℚ := 3

/-- `DEPTH_DATA = 0b10111` (`auv.py` line 34). -/
def DEPTH_DATA : ℕ := 0b10111

/-- `DEPTH_ENCODE = DEPTH_DATA << 11` (`auv.py` line 37). -/
def DEPTH_ENCODE : ℕ := DEPTH_DATA <<< 11

/-- `MAX_TIME = 600` (`auv.py` line 39). -/
def MAX_TIME : ℚ := 600

/-- `MAX_ITERATION_COUNT = MAX_TIME / THREAD_SLEEP_DELAY / 7`
(`auv.py` line 40). -/
def MAX_ITERATION_COUNT : ℚ := MAX_TIME / THREAD_SLEEP_DELAY / 7

/-! ### Depth telemetry encoding (`auv.py` lines 210-231) -/

/-- Round to the nearest integer with ties to even, mirroring Python's
`round` applied to the exact rational value. -/
def rndHalfEven (q : ℚ) : ℤ :=
  if Int.fract q < 1 / 2 then ⌊q⌋
  else if 1 / 2 < Int.fract q then ⌊q⌋ + 1
  else if ⌊q⌋ % 2 = 0 then ⌊q⌋ else ⌊q⌋ + 1

/-- Depth estimate from a pressure reading in mbar, clamped at zero
(`auv.py` lines 215-217): `(pressure - 1013.25) / 1000 * 10.2`. -/
def mbarToDepth (pressure : ℚ) : ℚ :=
  let d := (pressure - 1013.25) / 1000 * 10.2
  if d < 0 then 0 else d

/-- Integer part of the clamped depth: `x = int(for_depth[1])`
(`auv.py` line 221). -/
def depthIntPart (pressure : ℚ) : ℕ :=
  (⌊mbarToDepth pressure⌋).toNat

/-- One-decimal fractional digit of the clamped depth:
`y = int(round(for_depth[0], 1) * 10)` (`auv.py` line 220). -/
def depthFracDigit (pressure : ℚ) : ℕ :=
  (rndHalfEven (Int.fract (mbarToDepth pressure) * 10)).toNat

/-- The packed DEPTH telemetry frame
`depth_encode = (DEPTH_ENCODE | x | y)` with `x` already shifted left by 4
(`auv.py` lines 222-223). -/
def depthFrame (pressure : ℚ) : ℕ :=
  DEPTH_ENCODE ||| (depthIntPart pressure <<< 4) ||| depthFracDigit pressure

/-- Modelled from the spec: the receiving side extracts the 4-bit
integer-depth field from bits 4-7 of a telemetry frame.  The base-station
decoder is not part of the AUV-side source under `src/`. -/
def extractDepthInt (frame : ℕ) : ℕ :=
  (frame &&& 0xF0) >>> 4

/-- Modelled from the spec: the receiving side extracts the 4-bit
fractional-depth field from bits 0-3 of a telemetry frame. -/
def extractDepthFrac (frame : ℕ) : ℕ :=
  frame &&& 0xF

/-! ### Navigation command codec (`auv.py` lines 262-274) -/

/-- Navigation decoding exactly as in `auv.py` lines 266-271:
`x = (message & 0x01F600) >> 9`, `sign = (message & 0x000100) >> 8`,
`y = message & 0x0000FF`, with `y` negated when `sign == 1`. -/
def decodeNav (message : ℕ) : ℕ × ℤ :=
  let x := (message &&& 0x01F600) >>> 9
  let sign := (message &&& 0x000100) >>> 8
  let y : ℤ := (message &&& 0x0000FF : ℕ)
  (x, if sign = 1 then -y else y)

/-- Modelled from the spec: the base station builds a navigation frame by
placing the turn magnitude in bits 9 and up, the sign of the forward
magnitude in bit 8, its absolute value in bits 0-7, and setting the
navigation discriminator bit 17 (`0x020000`).  The encoder lives on the
base-station side, outside `src/`. -/
def encodeNav (x : ℕ) (y : ℤ) : ℕ :=
  0x020000 ||| (x <<< 9) ||| ((if y < 0 then 1 else 0) <<< 8) ||| y.natAbs

/-! ### State of `AUV.main_loop` and the events it emits -/

/-- Side effects of one loop iteration on the external collaborators:
motor-speed commands to the motor controller, radio writes
`(value, n_bytes)`, radio flush/close, and calls into the running
mission's `loop`/`abort_loop` hooks (tagged with the mission object's
identity). -/
inductive Event where
  | motorCmd (speeds : List ℤ)
  | writeRadio (value : ℕ) (nbytes : ℕ)
  | flushRadio
  | closeRadio
  | missionLoop (mid : ℕ)
  | missionAbort (mid : ℕ)
  deriving DecidableEq

/-- Discriminator for radio-write events, used to state which loop phases
write to the link. -/
def isRadioWrite : Event → Bool
  | Event.writeRadio _ _ => true
  | _ => false

/-- The mutable state of the `AUV` object that the main loop reads and
writes (`auv.py` lines 50-59).  `radio = some b` models a link object being
present with `is_open() = b`; `current_mission` holds the identity of the
live `Mission1` object, and `nextMissionId` is a freshness counter standing
for allocation of a new mission object. -/
structure AUVState where
  radio : Option Bool
  connected_to_bs : Bool
  time_since_last_ping : ℚ
  current_mission : Option ℕ
  nextMissionId : ℕ
  timer : ℕ
  motor_speeds : List ℤ
  deriving DecidableEq

/-- The connection-timeout check at the top of every main-loop iteration
(`auv.py` lines 144-157): when more than `CONNECTION_TIMEOUT` has passed
since the last ping and the AUV believes it is connected, it zeroes the
motors, flushes the radio when a link object is present, and clears
`connected_to_bs`. -/
def timeoutCheck (now : ℚ) (s : AUVState) : AUVState × List Event :=
  if now - s.time_since_last_ping > CONNECTION_TIMEOUT then
    if s.connected_to_bs = true then
      ({ s with connected_to_bs := false, motor_speeds := [0, 0, 0, 0] },
        [Event.motorCmd [0, 0, 0, 0]] ++
          (if s.radio.isSome then [Event.flushRadio] else []))
    else (s, [])
  else (s, [])

/-- The open-loop turn-then-forward maneuver `run_motors(x, y)`
(`auv.py` lines 104-135).  `zero_out_motors` on the external motor
controller is modelled as commanding `[0, 0, 0, 0]`; every path leaves the
motors zeroed. -/
def runMotors (x : ℕ) (y : ℤ) (s : AUVState) : AUVState × List Event :=
  let turn_speed : ℤ := if y > 0 then 90 else if y < 0 then -90 else 0
  ({ s with motor_speeds := [0, 0, 0, 0] },
    [Event.motorCmd [0, 0, 0, 0], Event.motorCmd [0, turn_speed, 0, 0],
        Event.motorCmd [0, 0, 0, 0]] ++
      (if x ≠ 0 then [Event.motorCmd [90, 0, 0, 0]] else []) ++
      [Event.motorCmd [0, 0, 0, 0]])

/-- `AUV.start_mission` (`auv.py` lines 329-340): only mission id 0 is
implemented; it constructs a fresh `Mission1` object and resets the timer.
The `Mission1` constructor is external collaborator code and is modelled as
succeeding. -/
def start_mission (mission : ℕ) (s : AUVState) : AUVState × List Event :=
  if mission = 0 then
    ({ s with current_mission := some s.nextMissionId,
              nextMissionId := s.nextMissionId + 1, timer := 0 }, [])
  else (s, [])

/-- Dispatch of one full 3-byte frame (`auv.py` lines 240-281): a ping
refreshes the liveness clock and, on the disconnected-to-connected
transition, also commands motor speeds `[1, 2, 3, 4]`; a frame with bit 17
set is a navigation command; anything else starts the mission selected by
its low two bits. -/
def processFrame (now : ℚ) (s : AUVState) (message : ℕ) :
    AUVState × List Event :=
  if message = BS_PING then
    let s1 := { s with time_since_last_ping := now }
    if s1.connected_to_bs = false then
      ({ s1 with connected_to_bs := true, motor_speeds := [1, 2, 3, 4] },
        [Event.motorCmd [1, 2, 3, 4]])
    else (s1, [])
  else if message &&& 0x020000 > 0 then
    runMotors (decodeNav message).1 (decodeNav message).2 s
  else
    start_mission (message &&& 0x3) s

/-- The read-drain loop (`auv.py` lines 240-305): process each full 3-byte
frame in order until a short read ends the list. -/
def processFrames (now : ℚ) (frames : List ℕ) (s : AUVState) :
    AUVState × List Event :=
  match frames with
  | [] => (s, [])
  | f :: rest =>
      let u := processFrame now s f
      let v := processFrames now rest u.1
      (v.1, u.2 ++ v.2)

/-- The writes performed while the radio is open (`auv.py` lines 169-231):
the heartbeat byte `0xFF` is written unconditionally; the packed depth
frame is written only while connected and only when the pressure sensor is
present (its reading is `pressure`).  Heading and temperature are read from
the inertial sensor but never written by this code. -/
def sessionWrites (connected : Bool) (pressure : Option ℚ) : List Event :=
  [Event.writeRadio PING_BYTE 1] ++
    (if connected then
      (match pressure with
        | some p => [Event.writeRadio (depthFrame p) 2]
        | none => [])
      else [])

/-- The mission-supervision step at the bottom of every iteration
(`auv.py` lines 317-325) together with `AUV.abort_mission`
(lines 351-356): while a mission object is live, call its `loop` hook and
bump the timer; past the iteration budget, clear `current_mission` and call
the old mission's `abort_loop` hook. -/
def missionPhase (s : AUVState) : AUVState × List Event :=
  match s.current_mission with
  | none => (s, [])
  | some m =>
      let s1 := { s with timer := s.timer + 1 }
      if (s1.timer : ℚ) > MAX_ITERATION_COUNT then
        ({ s1 with current_mission := none },
          [Event.missionLoop m, Event.missionAbort m])
      else (s1, [Event.missionLoop m])

/-- Environment inputs consumed by one main-loop iteration: the clock
value, whether a reconnection attempt would succeed, the pressure-sensor
reading (`none` when the sensor is absent), the full 3-byte frames read
before a short read, and — when an I/O exception interrupts the session —
how many of those frames were dispatched before it was raised. -/
structure TickInput where
  now : ℚ
  reconnect : Bool
  pressure : Option ℚ
  frames : List ℕ
  errorAfter : Option ℕ
  deriving DecidableEq

/-- One iteration of `AUV.main_loop` (`auv.py` lines 141-327): the timeout
check, then either a reconnection attempt (radio absent or closed) or a
radio session (heartbeat and telemetry writes, frame dispatch, final
flush); an I/O exception inside the session closes and discards the link
and `continue`s, skipping the mission phase for that iteration. -/
def tick (inp : TickInput) (s : AUVState) : AUVState × List Event :=
  let t := timeoutCheck inp.now s
  if t.1.radio ≠ some true then
    let s2 := if inp.reconnect then { t.1 with radio := some true } else t.1
    ((missionPhase s2).1, t.2 ++ (missionPhase s2).2)
  else
    let wEvs := sessionWrites t.1.connected_to_bs inp.pressure
    match inp.errorAfter with
    | some k =>
        let pr := processFrames inp.now (inp.frames.take k) t.1
        ({ pr.1 with radio := none }, t.2 ++ wEvs ++ pr.2 ++ [Event.closeRadio])
    | none =>
        let pr := processFrames inp.now inp.frames t.1
        ((missionPhase pr.1).1,
          t.2 ++ wEvs ++ pr.2 ++ [Event.flushRadio] ++ (missionPhase pr.1).2)

/-- The frames actually dispatched during `tick`: none when the radio is
not open, and only those preceding the I/O error when one occurs. -/
def processedFrames (inp : TickInput) (s : AUVState) : List ℕ :=
  if (timeoutCheck inp.now s).1.radio ≠ some true then []
  else
    match inp.errorAfter with
    | some k => inp.frames.take k
    | none => inp.frames

/-- Iterated mission-supervision steps: the state and accumulated mission
events after `n` further loop iterations in which the radio block leaves
the mission state alone. -/
def missionTrace : ℕ → AUVState → AUVState × List Event
  | 0, s => (s, [])
  | n + 1, s =>
      let u := missionPhase s
      let v := missionTrace n u.1
      (v.1, u.2 ++ v.2)

/-! ### Concrete sample states and inputs, used by witnesses and
counterexamples -/

/-- A disconnected state with an open radio and no mission. -/
def sampleIdle : AUVState :=
  { radio := some true, connected_to_bs := false, time_since_last_ping := 0,
    current_mission := none, nextMissionId := 0, timer := 0,
    motor_speeds := [0, 0, 0, 0] }

/-- A connected state with an open radio and no mission. -/
def sampleConnected : AUVState :=
  { radio := some true, connected_to_bs := true, time_since_last_ping := 0,
    current_mission := none, nextMissionId := 0, timer := 0,
    motor_speeds := [5, 5, 5, 5] }

/-- A state in which mission object 0 is already running with five elapsed
ticks. -/
def sampleRunning : AUVState :=
  { radio := some true, connected_to_bs := true, time_since_last_ping := 0,
    current_mission := some 0, nextMissionId := 1, timer := 5,
    motor_speeds := [0, 0, 0, 0] }

/-- A tick input delivering a single ping frame at time 5 with no error. -/
def samplePingInput : TickInput :=
  { now := 5, reconnect := false, pressure := none, frames := [BS_PING],
    errorAfter := none }

/-- A tick input whose session raises an I/O error after dispatching one of
its two frames. -/
def sampleErrorInput : TickInput :=
  { now := 1, reconnect := false, pressure := some 2000,
    frames := [BS_PING, 0x020800], errorAfter := some 1 }

/-! ### Generic bit lemmas -/

theorem land_lor_distrib_right (a b c : ℕ) :
    (a ||| b) &&& c = (a &&& c) ||| (b &&& c) := by
  apply Nat.eq_of_testBit_eq
  intro i
  simp only [Nat.testBit_land, Nat.testBit_lor]
  cases a.testBit i <;> cases b.testBit i <;> cases c.testBit i <;> rfl

theorem shiftLeft_land_eq_zero (a b k : ℕ) (hb : b < 2 ^ k) :
    (a <<< k) &&& b = 0 := by
  apply Nat.eq_of_testBit_eq
  intro i
  simp only [Nat.testBit_land, Nat.zero_testBit]
  rcases lt_or_le i k with h | h
  · rw [Nat.testBit_shiftLeft]
    simp [Nat.not_le.mpr h]
  · have hb2 : b < 2 ^ i :=
      lt_of_lt_of_le hb (Nat.pow_le_pow_right (by norm_num) h)
    simp [Nat.testBit_lt_two_pow hb2]

theorem shiftLeft_land_shiftLeft (a b k : ℕ) :
    (a <<< k) &&& (b <<< k) = (a &&& b) <<< k := by
  apply Nat.eq_of_testBit_eq
  intro i
  simp only [Nat.testBit_land, Nat.testBit_shiftLeft]
  by_cases h : k ≤ i <;> simp [h]

theorem shiftLeft_shiftRight_self (a k : ℕ) : (a <<< k) >>> k = a := by
  rw [Nat.shiftLeft_eq, Nat.shiftRight_eq_div_pow]
  exact Nat.mul_div_cancel a (Nat.pos_pow_of_pos k (by norm_num))

/-! ### Bounded bit facts, established by exhaustive evaluation -/

theorem navMaskX : ∀ x < 128,
    ((x <<< 9) &&& 0x01F600) >>> 9 = x &&& 251 ∧
    (x <<< 9) &&& 0x100 = 0 ∧ (x <<< 9) &&& 0xFF = 0 := by decide

theorem navMaskS : ∀ s < 2,
    (s <<< 8) &&& 0x01F600 = 0 ∧
    ((s <<< 8) &&& 0x100) >>> 8 = s ∧ (s <<< 8) &&& 0xFF = 0 := by decide

theorem navMaskN : ∀ n < 256,
    n &&& 0x01F600 = 0 ∧ n &&& 0x100 = 0 ∧ n &&& 0xFF = n := by decide

theorem maskDropBit2 : ∀ x < 128, x &&& 4 = 0 → x &&& 251 = x := by decide

theorem smallLandFifteen : ∀ y < 11, y &&& 15 = y ∧ y &&& 240 = 0 := by decide

theorem smallLandFifteenSelf : ∀ x < 16, x &&& 15 = x := by decide

/-- Components of a navigation frame built from bounded fields, as seen
through the receiver's three extraction masks. -/
theorem decodeNav_fields (x s n : ℕ) (hx : x < 128) (hs : s < 2)
    (hn : n < 256) :
    ((0x020000 ||| (x <<< 9) ||| (s <<< 8) ||| n) &&& 0x01F600) >>> 9
        = x &&& 251 ∧
    ((0x020000 ||| (x <<< 9) ||| (s <<< 8) ||| n) &&& 0x100) >>> 8 = s ∧
    (0x020000 ||| (x <<< 9) ||| (s <<< 8) ||| n) &&& 0xFF = n := by
  obtain ⟨hx1, hx2, hx3⟩ := navMaskX x hx
  obtain ⟨hs1, hs2, hs3⟩ := navMaskS s hs
  obtain ⟨hn1, hn2, hn3⟩ := navMaskN n hn
  refine ⟨?_, ?_, ?_⟩
  · have e : (0x020000 ||| (x <<< 9) ||| (s <<< 8) ||| n) &&& 0x01F600
        = (x <<< 9) &&& 0x01F600 := by
      rw [land_lor_distrib_right, land_lor_distrib_right,
        land_lor_distrib_right, hn1, hs1,
        show (0x020000 &&& 0x01F600 : ℕ) = 0 by decide]
      simp
    rw [e, hx1]
  · have e : (0x020000 ||| (x <<< 9) ||| (s <<< 8) ||| n) &&& 0x100
        = (s <<< 8) &&& 0x100 := by
      rw [land_lor_distrib_right, land_lor_distrib_right,
        land_lor_distrib_right, hn2, hx2,
        show (0x020000 &&& 0x100 : ℕ) = 0 by decide]
      simp
    rw [e, hs2]
  · rw [land_lor_distrib_right, land_lor_distrib_right,
      land_lor_distrib_right, hn3, hs3, hx3,
      show (0x020000 &&& 0xFF : ℕ) = 0 by decide]
    simp

/-! ### Claim C1: navigation-frame round trip -/

/-- Claim C1, counterexample: the navigation frame built from
`(x, y) = (4, 0)` does not decode back to `(4, 0)` — the receiver's mask
`0x01F600` omits bit 11, so bit 2 of the turn magnitude is lost and the
decoded pair is `(0, 0)`. -/
theorem nav_roundtrip_cex : decodeNav (encodeNav 4 0) ≠ (4, 0) := by decide

/-- Claim C1 (amended): for every navigation frame constructed from
`x ∈ [0, 127]` and `y ∈ [-255, 255]`, the receiver's extraction recovers
the sign and forward magnitude `y` exactly, but recovers `x &&& 251`, i.e.
the turn magnitude with bit 2 cleared (the mask `0x01F600` omits bit 11);
the round trip is exact precisely on inputs whose bit 2 is clear. -/
theorem nav_decode_encode (x : ℕ) (y : ℤ) (hx : x ≤ 127)
    (hy : y.natAbs ≤ 255) :
    decodeNav (encodeNav x y) = (x &&& 251, y) ∧
    (x &&& 4 = 0 → decodeNav (encodeNav x y) = (x, y)) := by
  have hs : (if y < 0 then (1 : ℕ) else 0) < 2 := by split <;> norm_num
  obtain ⟨h1, h2, h3⟩ := decodeNav_fields x (if y < 0 then 1 else 0)
    y.natAbs (by omega) hs (by omega)
  have main : decodeNav (encodeNav x y) = (x &&& 251, y) := by
    simp only [decodeNav, encodeNav]
    rw [h1, h2, h3]
    refine Prod.ext rfl ?_
    show (if (if y < 0 then (1 : ℕ) else 0) = 1 then -((y.natAbs : ℕ) : ℤ)
      else ((y.natAbs : ℕ) : ℤ)) = y
    rcases lt_or_le y 0 with hneg | hpos
    · rw [if_pos hneg, if_pos rfl]
      omega
    · rw [if_neg (not_lt.mpr hpos), if_neg (by norm_num)]
      omega
  refine ⟨main, fun h4 => ?_⟩
  rw [maskDropBit2 x (by omega) h4] at main
  exact main

/-- Claim C1, witness: the amended statement evaluated at `(10, -3)`. -/
theorem nav_decode_encode_witness :
    decodeNav (encodeNav 10 (-3)) = (10 &&& 251, -3) ∧
    (10 &&& 4 = 0 → decodeNav (encodeNav 10 (-3)) = (10, -3)) :=
  nav_decode_encode 10 (-3) (by norm_num) (by norm_num)

/-! ### Claims C3 and C4: depth telemetry packing -/

theorem rndHalfEven_bounds (q : ℚ) :
    ⌊q⌋ ≤ rndHalfEven q ∧ rndHalfEven q ≤ ⌊q⌋ + 1 := by
  unfold rndHalfEven
  split_ifs <;> omega

/-- The fractional-depth field is always at most 10 (it is 10 exactly when
the fractional part rounds up to a full unit). -/
theorem depthFracDigit_le (p : ℚ) : depthFracDigit p ≤ 10 := by
  have h0 : (0 : ℚ) ≤ Int.fract (mbarToDepth p) := Int.fract_nonneg _
  have h1 : Int.fract (mbarToDepth p) < 1 := Int.fract_lt_one _
  have hfl : ⌊Int.fract (mbarToDepth p) * 10⌋ < 10 := by
    apply Int.floor_lt.mpr
    push_cast
    linarith
  have hfl0 : 0 ≤ ⌊Int.fract (mbarToDepth p) * 10⌋ :=
    Int.floor_nonneg.mpr (by linarith)
  have hb := rndHalfEven_bounds (Int.fract (mbarToDepth p) * 10)
  unfold depthFracDigit
  omega

/-- Evaluation of the depth fields at pressure 3013.25 mbar: the converted
depth is 20.4. -/
theorem depthEval_3013 :
    depthIntPart 3013.25 = 20 ∧ depthFracDigit 3013.25 = 4 := by
  constructor
  · simp only [depthIntPart, mbarToDepth]
    norm_num
    rfl
  · simp only [depthFracDigit, rndHalfEven, mbarToDepth, Int.fract]
    norm_num
    rfl

/-- Evaluation of the depth fields at pressure 13660 mbar: the converted
depth is 128.99685, so the integer part is 128 and the fractional part
rounds up to a full unit. -/
theorem depthEval_13660 :
    depthIntPart 13660 = 128 ∧ depthFracDigit 13660 = 10 := by
  constructor
  · simp only [depthIntPart, mbarToDepth]
    norm_num
    rfl
  · simp only [depthFracDigit, rndHalfEven, mbarToDepth, Int.fract]
    norm_num
    rfl

/-- Evaluation of the depth fields at pressure 1200 mbar: the converted
depth is 1.90485. -/
theorem depthEval_1200 :
    depthIntPart 1200 = 1 ∧ depthFracDigit 1200 = 9 := by
  constructor
  · simp only [depthIntPart, mbarToDepth]
    norm_num
  · simp only [depthFracDigit, rndHalfEven, mbarToDepth, Int.fract]
    norm_num
    rfl

/-- Claim C3, counterexample: at pressure 3013.25 mbar the conversion gives
depth 20.4, whose integer part 20 does not fit the 4-bit slot, so bits 4-7
of the encoded frame read back 4, not 20. -/
theorem depth_roundtrip_cex :
    extractDepthInt (depthFrame 3013.25) ≠ depthIntPart 3013.25 := by
  unfold depthFrame extractDepthInt
  rw [depthEval_3013.1, depthEval_3013.2]
  decide

/-- Claim C3 (amended): for every pressure reading, bits 0-3 of the encoded
frame recover the fractional-depth field exactly, and bits 4-7 recover the
integer-depth field reduced modulo 16 — hence exactly whenever the integer
part of the converted depth is below 16. -/
theorem depth_extract (p : ℚ) :
    extractDepthFrac (depthFrame p) = depthFracDigit p ∧
    extractDepthInt (depthFrame p) = depthIntPart p &&& 15 ∧
    (depthIntPart p < 16 → extractDepthInt (depthFrame p) = depthIntPart p) := by
  have hy := depthFracDigit_le p
  obtain ⟨hy15, hy240⟩ := smallLandFifteen (depthFracDigit p) (by omega)
  have hint : extractDepthInt (depthFrame p) = depthIntPart p &&& 15 := by
    unfold extractDepthInt depthFrame
    rw [land_lor_distrib_right, land_lor_distrib_right,
      show DEPTH_ENCODE &&& 0xF0 = 0 by decide, hy240,
      show (0xF0 : ℕ) = 15 <<< 4 by decide, shiftLeft_land_shiftLeft]
    simp [shiftLeft_shiftRight_self]
  refine ⟨?_, hint, fun h16 => ?_⟩
  · unfold extractDepthFrac depthFrame
    rw [land_lor_distrib_right, land_lor_distrib_right,
      show DEPTH_ENCODE &&& 0xF = 0 by decide,
      shiftLeft_land_eq_zero _ _ 4 (by norm_num), hy15]
    simp
  · rw [hint, smallLandFifteenSelf _ h16]

/-- Claim C3, witness: at pressure 1200 mbar (integer depth 1 < 16) both
fields are recovered exactly. -/
theorem depth_extract_witness :
    extractDepthFrac (depthFrame 1200) = depthFracDigit 1200 ∧
    extractDepthInt (depthFrame 1200) = depthIntPart 1200 :=
  ⟨(depth_extract 1200).1,
    (depth_extract 1200).2.2 (by rw [depthEval_1200.1]; norm_num)⟩

/-- Claim C4, counterexample: at pressure 13660 mbar the depth is
128.99685, so both conjuncts of the claim fail at once — the fractional
part rounds to 1.0 and the fractional field is `int(1.0 * 10) = 10`,
outside the stated 0-9 range, and the integer field 128 shifted left by 4
lands on bit 11, which is set in `DEPTH_ENCODE`, so the integer and header
fields overlap in the OR-composed frame. -/
theorem depth_fields_cex :
    (depthFracDigit 13660 = 10 ∧ ¬ depthFracDigit 13660 ≤ 9) ∧
    DEPTH_ENCODE &&& (depthIntPart 13660 <<< 4) ≠ 0 := by
  rw [depthEval_13660.1, depthEval_13660.2]
  decide

/-- Claim C4 (amended): for every pressure reading the fractional field
lies in 0-10, so it always fits its 4-bit slot and is disjoint from both
the header and the shifted integer field; the integer field, by contrast,
can carry into the header bits (it does at the counterexample's integer
depth 128) — whenever the integer depth part is below 128, all three
fields are pairwise disjoint in the OR-composed frame. -/
theorem depth_fields_fit (p : ℚ) :
    depthFracDigit p ≤ 10 ∧ depthFracDigit p < 16 ∧
    DEPTH_ENCODE &&& depthFracDigit p = 0 ∧
    (depthIntPart p <<< 4) &&& depthFracDigit p = 0 ∧
    (depthIntPart p < 128 → DEPTH_ENCODE &&& (depthIntPart p <<< 4) = 0) := by
  have hy := depthFracDigit_le p
  refine ⟨hy, by omega, ?_, ?_, fun hx => ?_⟩
  · rw [show DEPTH_ENCODE = 23 <<< 11 from rfl]
    exact shiftLeft_land_eq_zero 23 _ 11 (by omega)
  · exact shiftLeft_land_eq_zero _ _ 4 (by omega)
  · rw [show DEPTH_ENCODE = 23 <<< 11 from rfl]
    apply shiftLeft_land_eq_zero 23 _ 11
    have h16 : depthIntPart p <<< 4 = depthIntPart p * 16 := by
      rw [Nat.shiftLeft_eq]
    rw [h16]
    calc depthIntPart p * 16 < 128 * 16 := by omega
      _ ≤ 2 ^ 11 := by norm_num

/-- Claim C4, witness: the amended statement evaluated at pressure
1200 mbar, where the integer depth part is 1 < 128. -/
theorem depth_fields_fit_witness :
    depthFracDigit 1200 ≤ 10 ∧
    DEPTH_ENCODE &&& (depthIntPart 1200 <<< 4) = 0 :=
  ⟨(depth_fields_fit 1200).1,
    (depth_fields_fit 1200).2.2.2.2 (by rw [depthEval_1200.1]; norm_num)⟩

/-! ### Structural lemmas about the loop phases -/

theorem timeoutCheck_radio (now : ℚ) (s : AUVState) :
    (timeoutCheck now s).1.radio = s.radio := by
  unfold timeoutCheck
  split_ifs <;> rfl

theorem timeoutCheck_time (now : ℚ) (s : AUVState) :
    (timeoutCheck now s).1.time_since_last_ping = s.time_since_last_ping := by
  unfold timeoutCheck
  split_ifs <;> rfl

theorem timeoutCheck_mission (now : ℚ) (s : AUVState) :
    (timeoutCheck now s).1.current_mission = s.current_mission := by
  unfold timeoutCheck
  split_ifs <;> rfl

theorem timeoutCheck_timer (now : ℚ) (s : AUVState) :
    (timeoutCheck now s).1.timer = s.timer := by
  unfold timeoutCheck
  split_ifs <;> rfl

/-- The timeout check can only lower the connected flag, and does so exactly
when the timeout condition holds. -/
theorem timeoutCheck_connected (now : ℚ) (s : AUVState) :
    (timeoutCheck now s).1.connected_to_bs =
      (s.connected_to_bs &&
        !(decide (now - s.time_since_last_ping > CONNECTION_TIMEOUT))) := by
  unfold timeoutCheck
  split_ifs with h1 h2 <;> simp_all

/-! ### Claim C5: the disconnect transition fires exactly once -/

/-- The timeout branch is a no-op whenever the AUV is not marked
connected. -/
theorem timeoutCheck_noop (now : ℚ) (s : AUVState)
    (h : s.connected_to_bs = false) :
    timeoutCheck now s = (s, []) := by
  unfold timeoutCheck
  rcases lt_or_le CONNECTION_TIMEOUT (now - s.time_since_last_ping) with h1 | h1
  · rw [if_pos h1, if_neg (by simp [h])]
  · rw [if_neg (not_lt.mpr h1)]

/-- Claim C5: while connected, a tick that observes
`now - last_ping > CONNECTION_TIMEOUT` performs exactly one zero-speed
motor command, flushes the radio when a link is present, and clears
`connected_to_bs`; on the resulting state any further timeout check is a
no-op, so the zero-speed command is not re-issued. -/
theorem timeout_disconnect_once (now now2 : ℚ) (s : AUVState)
    (hconn : s.connected_to_bs = true)
    (htime : now - s.time_since_last_ping > CONNECTION_TIMEOUT) :
    timeoutCheck now s =
      ({ s with connected_to_bs := false, motor_speeds := [0, 0, 0, 0] },
        [Event.motorCmd [0, 0, 0, 0]] ++
          (if s.radio.isSome then [Event.flushRadio] else [])) ∧
    timeoutCheck now2 (timeoutCheck now s).1 = ((timeoutCheck now s).1, []) := by
  have h1 : timeoutCheck now s =
      ({ s with connected_to_bs := false, motor_speeds := [0, 0, 0, 0] },
        [Event.motorCmd [0, 0, 0, 0]] ++
          (if s.radio.isSome then [Event.flushRadio] else [])) := by
    unfold timeoutCheck
    rw [if_pos htime, if_pos hconn]
  exact ⟨h1, timeoutCheck_noop now2 _ (by rw [h1])⟩

/-- Claim C5, witness: the transition evaluated on a concrete connected
state at time 4, followed by a second check at time 10. -/
theorem timeout_disconnect_once_witness :
    timeoutCheck 4 sampleConnected =
      ({ sampleConnected with
          connected_to_bs := false
          motor_speeds := [0, 0, 0, 0] },
        [Event.motorCmd [0, 0, 0, 0]] ++
          (if sampleConnected.radio.isSome then [Event.flushRadio] else [])) ∧
    timeoutCheck 10 (timeoutCheck 4 sampleConnected).1 =
      ((timeoutCheck 4 sampleConnected).1, []) :=
  timeout_disconnect_once 4 10 sampleConnected rfl
    (by norm_num [sampleConnected, CONNECTION_TIMEOUT])

/-! ### Claim C10: the ping transition commands motor speeds [1, 2, 3, 4] -/

/-- Claim C10: on the disconnected-to-connected transition (a ping frame
observed while `connected_to_bs` is false) the code records the ping time,
raises the flag, and additionally commands motor speeds `[1, 2, 3, 4]`;
a ping received while already connected only refreshes the ping time. -/
theorem ping_motor_cmd (now : ℚ) (s : AUVState) :
    (s.connected_to_bs = false →
      processFrame now s BS_PING =
        ({ s with
            time_since_last_ping := now
            connected_to_bs := true
            motor_speeds := [1, 2, 3, 4] }, [Event.motorCmd [1, 2, 3, 4]])) ∧
    (s.connected_to_bs = true →
      processFrame now s BS_PING = ({ s with time_since_last_ping := now }, [])) := by
  constructor <;> intro h <;> simp [processFrame, h]

/-- Claim C10, witness: the transition evaluated on a concrete disconnected
state. -/
theorem ping_motor_cmd_witness :
    processFrame 5 sampleIdle BS_PING =
      ({ sampleIdle with
          time_since_last_ping := 5
          connected_to_bs := true
          motor_speeds := [1, 2, 3, 4] }, [Event.motorCmd [1, 2, 3, 4]]) :=
  (ping_motor_cmd 5 sampleIdle).1 rfl

/-! ### Claim C2: start_mission while a mission is running -/

/-- Claim C2, counterexample: with mission object 0 running and five
elapsed ticks, `start_mission(0)` is not rejected — it resets the timer to
0 and replaces the running mission object, contradicting "rejected with no
state change". -/
theorem start_mission_cex :
    (start_mission 0 sampleRunning).1.timer = 0 ∧ sampleRunning.timer = 5 ∧
    (start_mission 0 sampleRunning).1.current_mission ≠
      sampleRunning.current_mission := by decide

/-- Claim C2 (amended): while a mission is running, `start_mission` with a
nonzero id really is a no-op (no state change, no events, the running
mission and its timer untouched), but `start_mission 0` is not rejected: it
replaces the running mission with a freshly constructed `Mission1` object
and resets the elapsed-tick counter to 0, leaving the rest of the state
unchanged. -/
theorem start_mission_while_running (s : AUVState) (m : ℕ)
    (h : s.current_mission = some m) :
    (∀ j : ℕ, j ≠ 0 → start_mission j s = (s, [])) ∧
    (start_mission 0 s).1.current_mission = some s.nextMissionId ∧
    (start_mission 0 s).1.timer = 0 ∧
    (start_mission 0 s).1.nextMissionId = s.nextMissionId + 1 ∧
    (start_mission 0 s).1.connected_to_bs = s.connected_to_bs ∧
    (start_mission 0 s).1.motor_speeds = s.motor_speeds ∧
    (start_mission 0 s).2 = [] := by
  refine ⟨fun j hj => ?_, rfl, rfl, rfl, rfl, rfl, rfl⟩
  unfold start_mission
  rw [if_neg hj]

/-- Claim C2, witness: the amended statement evaluated on the concrete
running state, for rejected id 3 and restarted id 0. -/
theorem start_mission_while_running_witness :
    start_mission 3 sampleRunning = (sampleRunning, []) ∧
    (start_mission 0 sampleRunning).1.timer = 0 :=
  ⟨(start_mission_while_running sampleRunning 0 rfl).1 3 (by norm_num),
    (start_mission_while_running sampleRunning 0 rfl).2.2.1⟩

/-! ### Frame-dispatch lemmas -/

theorem start_mission_events (j : ℕ) (s : AUVState) :
    (start_mission j s).2 = [] := by
  unfold start_mission
  split_ifs <;> rfl

theorem start_mission_preserves (j : ℕ) (s : AUVState) :
    (start_mission j s).1.connected_to_bs = s.connected_to_bs ∧
    (start_mission j s).1.time_since_last_ping = s.time_since_last_ping ∧
    (start_mission j s).1.radio = s.radio ∧
    (start_mission j s).1.motor_speeds = s.motor_speeds := by
  unfold start_mission
  split_ifs <;> exact ⟨rfl, rfl, rfl, rfl⟩

/-- A non-ping frame never touches the connected flag, the ping clock or
the radio handle. -/
theorem processFrame_not_ping (now : ℚ) (s : AUVState) (f : ℕ)
    (hf : f ≠ BS_PING) :
    (processFrame now s f).1.connected_to_bs = s.connected_to_bs ∧
    (processFrame now s f).1.time_since_last_ping = s.time_since_last_ping ∧
    (processFrame now s f).1.radio = s.radio := by
  unfold processFrame
  rw [if_neg hf]
  by_cases h2 : f &&& 0x020000 > 0
  · rw [if_pos h2]
    exact ⟨rfl, rfl, rfl⟩
  · rw [if_neg h2]
    obtain ⟨p1, p2, p3, p4⟩ := start_mission_preserves (f &&& 0x3) s
    exact ⟨p1, p2, p3⟩

/-- Processing a ping frame always leaves the AUV marked connected with the
ping clock refreshed, and never touches the radio handle. -/
theorem processFrame_ping (now : ℚ) (s : AUVState) :
    (processFrame now s BS_PING).1.connected_to_bs = true ∧
    (processFrame now s BS_PING).1.time_since_last_ping = now ∧
    (processFrame now s BS_PING).1.radio = s.radio := by
  cases hc : s.connected_to_bs
  · simp [processFrame, hc]
  · simp [processFrame, hc]

/-- The timeout branch never writes to the radio (it only commands motors
and flushes). -/
theorem timeoutCheck_no_write (now : ℚ) (s : AUVState) :
    ((timeoutCheck now s).2).all (fun e => !isRadioWrite e) = true := by
  unfold timeoutCheck
  split_ifs <;> simp [isRadioWrite]

/-- The maneuver issued for a navigation command never writes to the
radio. -/
theorem runMotors_no_write (x : ℕ) (y : ℤ) (s : AUVState) :
    ((runMotors x y s).2).all (fun e => !isRadioWrite e) = true := by
  unfold runMotors
  by_cases h3 : x ≠ 0 <;> simp [h3, isRadioWrite]

/-- Frame dispatch never writes to the radio. -/
theorem processFrame_no_write (now : ℚ) (s : AUVState) (f : ℕ) :
    ((processFrame now s f).2).all (fun e => !isRadioWrite e) = true := by
  unfold processFrame
  by_cases h1 : f = BS_PING
  · rw [if_pos h1]
    by_cases h2 : s.connected_to_bs = false <;>
      simp [h2, isRadioWrite]
  · rw [if_neg h1]
    by_cases h2 : f &&& 0x020000 > 0
    · rw [if_pos h2]
      exact runMotors_no_write _ _ _
    · rw [if_neg h2]
      rw [start_mission_events]
      rfl

/-- The read-drain loop never writes to the radio. -/
theorem processFrames_no_write (now : ℚ) (fs : List ℕ) (s : AUVState) :
    ((processFrames now fs s).2).all (fun e => !isRadioWrite e) = true := by
  induction fs generalizing s with
  | nil => rfl
  | cons f rest ih =>
      simp only [processFrames, List.all_append]
      rw [processFrame_no_write, ih (processFrame now s f).1]
      rfl

/-- Connectivity after draining a list of frames: the flag is raised
exactly when it was already up or a ping frame was among the reads, the
ping clock is refreshed exactly when a ping frame was read, and the radio
handle is untouched. -/
theorem processFrames_spec (now : ℚ) (fs : List ℕ) (s : AUVState) :
    (processFrames now fs s).1.connected_to_bs
        = (s.connected_to_bs || decide (BS_PING ∈ fs)) ∧
    (processFrames now fs s).1.time_since_last_ping
        = (if BS_PING ∈ fs then now else s.time_since_last_ping) ∧
    (processFrames now fs s).1.radio = s.radio := by
  induction fs generalizing s with
  | nil => simp [processFrames]
  | cons f rest ih =>
      obtain ⟨ihc, iht, ihr⟩ := ih (processFrame now s f).1
      by_cases hf : f = BS_PING
      · subst hf
        obtain ⟨hc, ht, hr⟩ := processFrame_ping now s
        refine ⟨?_, ?_, ?_⟩
        · simp only [processFrames, ihc, hc, List.mem_cons]
          simp
        · simp only [processFrames, iht, ht, List.mem_cons]
          split_ifs with h1 h2 <;> simp_all
        · simp only [processFrames, ihr, hr]
      · obtain ⟨hc, ht, hr⟩ := processFrame_not_ping now s f hf
        have hmem : (BS_PING ∈ f :: rest) = (BS_PING ∈ rest) := by
          simp [List.mem_cons, Ne.symm hf]
        refine ⟨?_, ?_, ?_⟩
        · simp only [processFrames, ihc, hc, hmem]
        · simp only [processFrames, iht, ht, hmem]
        · simp only [processFrames, ihr, hr]

/-! ### Mission-phase lemmas -/

theorem missionPhase_preserves (s : AUVState) :
    (missionPhase s).1.connected_to_bs = s.connected_to_bs ∧
    (missionPhase s).1.time_since_last_ping = s.time_since_last_ping ∧
    (missionPhase s).1.radio = s.radio ∧
    (missionPhase s).1.motor_speeds = s.motor_speeds := by
  rcases hm : s.current_mission with _ | m
  · simp [missionPhase, hm]
  · simp only [missionPhase, hm]
    split_ifs <;> exact ⟨rfl, rfl, rfl, rfl⟩

/-- The mission phase never writes to the radio. -/
theorem missionPhase_no_write (s : AUVState) :
    ((missionPhase s).2).all (fun e => !isRadioWrite e) = true := by
  rcases hm : s.current_mission with _ | m
  · simp [missionPhase, hm]
  · simp only [missionPhase, hm]
    split_ifs <;> simp [isRadioWrite]

/-- The derived iteration budget `600 / 0.05 / 7 = 12000 / 7` is exceeded
by an integer tick count exactly from 1715 on. -/
theorem iterationBudget_iff (t : ℕ) :
    ((t : ℚ) > MAX_ITERATION_COUNT) ↔ 1715 ≤ t := by
  rw [show MAX_ITERATION_COUNT = 12000 / 7 by
    norm_num [MAX_ITERATION_COUNT, MAX_TIME, THREAD_SLEEP_DELAY]]
  rw [gt_iff_lt, div_lt_iff₀ (by norm_num)]
  constructor
  · intro h
    by_contra hc
    push_neg at hc
    have : (t : ℚ) ≤ 1714 := by exact_mod_cast Nat.lt_succ_iff.mp hc
    nlinarith
  · intro h
    have : (1715 : ℚ) ≤ (t : ℚ) := by exact_mod_cast h
    nlinarith

/-! ### Branch equations for one loop iteration -/

theorem tick_noRadio (inp : TickInput) (s : AUVState)
    (hr : (timeoutCheck inp.now s).1.radio ≠ some true) :
    tick inp s =
      ((missionPhase (if inp.reconnect then
          { (timeoutCheck inp.now s).1 with radio := some true }
          else (timeoutCheck inp.now s).1)).1,
        (timeoutCheck inp.now s).2 ++
          (missionPhase (if inp.reconnect then
            { (timeoutCheck inp.now s).1 with radio := some true }
            else (timeoutCheck inp.now s).1)).2) := by
  simp only [tick]
  rw [if_pos hr]

theorem tick_session (inp : TickInput) (s : AUVState)
    (hr : (timeoutCheck inp.now s).1.radio = some true)
    (he : inp.errorAfter = none) :
    tick inp s =
      ((missionPhase
          (processFrames inp.now inp.frames (timeoutCheck inp.now s).1).1).1,
        (timeoutCheck inp.now s).2 ++
          sessionWrites (timeoutCheck inp.now s).1.connected_to_bs inp.pressure ++
          (processFrames inp.now inp.frames (timeoutCheck inp.now s).1).2 ++
          [Event.flushRadio] ++
          (missionPhase
            (processFrames inp.now inp.frames (timeoutCheck inp.now s).1).1).2) := by
  simp only [tick]
  rw [if_neg (by simp [hr]), he]

theorem tick_error (inp : TickInput) (s : AUVState) (k : ℕ)
    (hr : (timeoutCheck inp.now s).1.radio = some true)
    (he : inp.errorAfter = some k) :
    tick inp s =
      ({ (processFrames inp.now (inp.frames.take k)
            (timeoutCheck inp.now s).1).1 with radio := none },
        (timeoutCheck inp.now s).2 ++
          sessionWrites (timeoutCheck inp.now s).1.connected_to_bs inp.pressure ++
          (processFrames inp.now (inp.frames.take k)
            (timeoutCheck inp.now s).1).2 ++
          [Event.closeRadio]) := by
  simp only [tick]
  rw [if_neg (by simp [hr]), he]

theorem processedFrames_radioOpen (inp : TickInput) (s : AUVState)
    (hr : (timeoutCheck inp.now s).1.radio = some true) :
    processedFrames inp s =
      (match inp.errorAfter with
        | some k => inp.frames.take k
        | none => inp.frames) := by
  unfold processedFrames
  rw [if_neg (by simp [hr])]

/-! ### Claim C6: the connected flag changes only on ping or timeout -/

/-- Claim C6: over an arbitrary loop iteration, `connected_to_bs` rises
from false to true only when a full 3-byte frame equal to `0xFFFFFF` is
among the dispatched reads (and then the ping clock is set to the current
time), and falls from true to false only when the iteration observed
`now - last_ping > CONNECTION_TIMEOUT`; no other step moves the flag. -/
theorem connected_flag_transitions (inp : TickInput) (s : AUVState) :
    ((tick inp s).1.connected_to_bs = true → s.connected_to_bs = false →
      BS_PING ∈ processedFrames inp s ∧
      (tick inp s).1.time_since_last_ping = inp.now) ∧
    ((tick inp s).1.connected_to_bs = false → s.connected_to_bs = true →
      inp.now - s.time_since_last_ping > CONNECTION_TIMEOUT) := by
  have htc := timeoutCheck_connected inp.now s
  by_cases hr : (timeoutCheck inp.now s).1.radio = some true
  case neg =>
    have heq := tick_noRadio inp s hr
    have hs2c : (if inp.reconnect then
        { (timeoutCheck inp.now s).1 with radio := some true }
        else (timeoutCheck inp.now s).1).connected_to_bs
        = (timeoutCheck inp.now s).1.connected_to_bs := by
      split_ifs <;> rfl
    have hcon : (tick inp s).1.connected_to_bs
        = (timeoutCheck inp.now s).1.connected_to_bs := by
      rw [heq]
      exact ((missionPhase_preserves _).1).trans hs2c
    constructor
    · intro hafter hbefore
      exfalso
      rw [hcon, htc, hbefore] at hafter
      simp at hafter
    · intro hafter hbefore
      rw [hcon, htc, hbefore] at hafter
      simpa using hafter
  case pos =>
    have hpf := processedFrames_radioOpen inp s hr
    rcases herr : inp.errorAfter with _ | k
    · have heq := tick_session inp s hr herr
      obtain ⟨pc, pt, prr⟩ :=
        processFrames_spec inp.now inp.frames (timeoutCheck inp.now s).1
      have hcon : (tick inp s).1.connected_to_bs =
          (processFrames inp.now inp.frames
            (timeoutCheck inp.now s).1).1.connected_to_bs := by
        rw [heq]
        exact (missionPhase_preserves _).1
      have htime : (tick inp s).1.time_since_last_ping =
          (processFrames inp.now inp.frames
            (timeoutCheck inp.now s).1).1.time_since_last_ping := by
        rw [heq]
        exact (missionPhase_preserves _).2.1
      rw [herr] at hpf
      constructor
      · intro hafter hbefore
        have ht0 : (timeoutCheck inp.now s).1.connected_to_bs = false := by
          rw [htc, hbefore]
          simp
        rw [hcon, pc, ht0] at hafter
        simp at hafter
        refine ⟨by rw [hpf]; exact hafter, ?_⟩
        rw [htime, pt, if_pos hafter]
      · intro hafter hbefore
        rw [hcon, pc] at hafter
        simp at hafter
        have ht1 := hafter.1
        rw [htc, hbefore] at ht1
        simpa using ht1
    · have heq := tick_error inp s k hr herr
      obtain ⟨pc, pt, prr⟩ := processFrames_spec inp.now (inp.frames.take k)
        (timeoutCheck inp.now s).1
      have hcon : (tick inp s).1.connected_to_bs =
          (processFrames inp.now (inp.frames.take k)
            (timeoutCheck inp.now s).1).1.connected_to_bs := by
        rw [heq]
      have htime : (tick inp s).1.time_since_last_ping =
          (processFrames inp.now (inp.frames.take k)
            (timeoutCheck inp.now s).1).1.time_since_last_ping := by
        rw [heq]
      rw [herr] at hpf
      constructor
      · intro hafter hbefore
        have ht0 : (timeoutCheck inp.now s).1.connected_to_bs = false := by
          rw [htc, hbefore]
          simp
        rw [hcon, pc, ht0] at hafter
        simp at hafter
        refine ⟨by rw [hpf]; exact hafter, ?_⟩
        rw [htime, pt, if_pos hafter]
      · intro hafter hbefore
        rw [hcon, pc] at hafter
        simp at hafter
        have ht1 := hafter.1
        rw [htc, hbefore] at ht1
        simpa using ht1

/-- Claim C6, witness: a single ping delivered at time 5 to a disconnected
state raises the flag, and the transition indeed records the ping among the
dispatched frames and stamps the ping clock. -/
theorem connected_flag_transitions_witness :
    BS_PING ∈ processedFrames samplePingInput sampleIdle ∧
    (tick samplePingInput sampleIdle).1.time_since_last_ping =
      samplePingInput.now :=
  (connected_flag_transitions samplePingInput sampleIdle).1
    (by
      have hr : (timeoutCheck samplePingInput.now sampleIdle).1.radio
          = some true := by
        rw [timeoutCheck_radio]
        rfl
      rw [tick_session samplePingInput sampleIdle hr rfl,
        (missionPhase_preserves _).1,
        (processFrames_spec samplePingInput.now samplePingInput.frames _).1]
      simp [samplePingInput])
    rfl

/-! ### Claim C8: an I/O error only drops the link -/

/-- Claim C8: when an I/O exception interrupts the session after `k`
dispatched frames, the handler discards the link (`radio = none`) and the
iteration ends there (the mission phase is skipped): relative to the state
reached just before the exception, the mission, its timer, the connected
flag and the motor speeds are all untouched, and the only extra event is
the close of the radio. -/
theorem io_error_drops_link (inp : TickInput) (s : AUVState) (k : ℕ)
    (hr : (timeoutCheck inp.now s).1.radio = some true)
    (he : inp.errorAfter = some k) :
    (tick inp s).1.radio = none ∧
    (tick inp s).1.current_mission =
      (processFrames inp.now (inp.frames.take k)
        (timeoutCheck inp.now s).1).1.current_mission ∧
    (tick inp s).1.timer =
      (processFrames inp.now (inp.frames.take k)
        (timeoutCheck inp.now s).1).1.timer ∧
    (tick inp s).1.connected_to_bs =
      (processFrames inp.now (inp.frames.take k)
        (timeoutCheck inp.now s).1).1.connected_to_bs ∧
    (tick inp s).1.motor_speeds =
      (processFrames inp.now (inp.frames.take k)
        (timeoutCheck inp.now s).1).1.motor_speeds ∧
    (tick inp s).2 =
      (timeoutCheck inp.now s).2 ++
        sessionWrites (timeoutCheck inp.now s).1.connected_to_bs inp.pressure ++
        (processFrames inp.now (inp.frames.take k)
          (timeoutCheck inp.now s).1).2 ++
        [Event.closeRadio] := by
  rw [tick_error inp s k hr he]
  exact ⟨rfl, rfl, rfl, rfl, rfl, rfl⟩

/-- Claim C8, witness: the error path evaluated on a concrete state whose
session fails after one dispatched frame. -/
theorem io_error_drops_link_witness :
    (tick sampleErrorInput sampleIdle).1.radio = none :=
  (io_error_drops_link sampleErrorInput sampleIdle 1
    (by rw [timeoutCheck_radio]; rfl) rfl).1

/-! ### Claim C9: heartbeat unconditional, telemetry only while connected -/

/-- Claim C9: on an error-free iteration with the radio open, the heartbeat
byte `0xFF` is written regardless of the connected flag, while any two-byte
(telemetry) write can only occur when the flag observed by the session is
true — no telemetry frame is ever written while disconnected. -/
theorem heartbeat_unconditional (inp : TickInput) (s : AUVState)
    (hr : (timeoutCheck inp.now s).1.radio = some true)
    (he : inp.errorAfter = none) :
    Event.writeRadio PING_BYTE 1 ∈ (tick inp s).2 ∧
    (∀ v, Event.writeRadio v 2 ∈ (tick inp s).2 →
      (timeoutCheck inp.now s).1.connected_to_bs = true) := by
  rw [tick_session inp s hr he]
  constructor
  · have hw : Event.writeRadio PING_BYTE 1 ∈
        sessionWrites (timeoutCheck inp.now s).1.connected_to_bs
          inp.pressure := by
      unfold sessionWrites
      exact List.mem_append_left _ (List.mem_singleton.mpr rfl)
    exact List.mem_append_left _ (List.mem_append_left _
      (List.mem_append_left _ (List.mem_append_right _ hw)))
  · intro v hv
    rcases List.mem_append.mp hv with hv | hv
    swap
    · have := List.all_eq_true.mp (missionPhase_no_write _) _ hv
      simp [isRadioWrite] at this
    rcases List.mem_append.mp hv with hv | hv
    swap
    · simp at hv
    rcases List.mem_append.mp hv with hv | hv
    swap
    · have := List.all_eq_true.mp (processFrames_no_write _ _ _) _ hv
      simp [isRadioWrite] at this
    rcases List.mem_append.mp hv with hv | hv
    · have := List.all_eq_true.mp (timeoutCheck_no_write _ _) _ hv
      simp [isRadioWrite] at this
    · cases hc : (timeoutCheck inp.now s).1.connected_to_bs
      · rw [hc] at hv
        simp [sessionWrites] at hv
      · rfl

/-- Claim C9, witness: the heartbeat write is present on a concrete
error-free iteration of a disconnected state with an open radio. -/
theorem heartbeat_unconditional_witness :
    Event.writeRadio PING_BYTE 1 ∈ (tick samplePingInput sampleIdle).2 :=
  (heartbeat_unconditional samplePingInput sampleIdle
    (by rw [timeoutCheck_radio]; rfl) rfl).1

/-! ### Claim C7: mission lifecycle and the iteration budget -/

/-- A mission step strictly below the budget only calls the mission's
`loop` hook and bumps the timer. -/
theorem missionPhase_run (s : AUVState) (m : ℕ)
    (hm : s.current_mission = some m) (hlt : s.timer + 1 < 1715) :
    missionPhase s = ({ s with timer := s.timer + 1 },
      [Event.missionLoop m]) := by
  simp only [missionPhase, hm]
  rw [if_neg (by rw [iterationBudget_iff]; omega)]

/-- The mission step that crosses the budget calls `loop`, then aborts:
the mission is cleared and its `abort_loop` hook is invoked. -/
theorem missionPhase_last (s : AUVState) (m : ℕ)
    (hm : s.current_mission = some m) (hge : 1715 ≤ s.timer + 1) :
    missionPhase s =
      ({ s with timer := s.timer + 1, current_mission := none },
        [Event.missionLoop m, Event.missionAbort m]) := by
  simp only [missionPhase, hm]
  rw [if_pos ((iterationBudget_iff _).mpr hge)]

/-- With no mission live, iterated mission phases do nothing. -/
theorem missionTrace_none (n : ℕ) (s : AUVState)
    (h : s.current_mission = none) :
    missionTrace n s = (s, []) := by
  induction n with
  | zero => rfl
  | succ n ih =>
      have hp : missionPhase s = (s, []) := by simp [missionPhase, h]
      simp only [missionTrace, hp]
      rw [ih]
      rfl

/-- While the budget is not yet crossed, `n` iterations make `n` `loop`
calls and advance the timer by `n`. -/
theorem missionTrace_run (m n : ℕ) :
    ∀ s : AUVState, s.current_mission = some m → s.timer + n ≤ 1714 →
    missionTrace n s =
      ({ s with timer := s.timer + n },
        List.replicate n (Event.missionLoop m)) := by
  induction n with
  | zero =>
      intro s hm hb
      rfl
  | succ n ih =>
      intro s hm hb
      have hrun := missionPhase_run s m hm (by omega)
      simp only [missionTrace, hrun]
      rw [ih { s with timer := s.timer + 1 } hm
        (show s.timer + 1 + n ≤ 1714 by omega)]
      have ht : s.timer + (n + 1) = s.timer + 1 + n := by omega
      rw [ht, List.replicate_succ]
      rfl

/-- Splitting an iterated trace at an intermediate point. -/
theorem missionTrace_add (a b : ℕ) : ∀ s : AUVState,
    missionTrace (a + b) s =
      ((missionTrace b (missionTrace a s).1).1,
        (missionTrace a s).2 ++ (missionTrace b (missionTrace a s).1).2) := by
  induction a with
  | zero =>
      intro s
      rw [Nat.zero_add]
      rfl
  | succ a ih =>
      intro s
      have h1 : a + 1 + b = (a + b) + 1 := by omega
      rw [h1]
      simp only [missionTrace]
      rw [ih (missionPhase s).1]
      simp [List.append_assoc]

/-- Claim C7: starting mission 0 while idle creates a fresh mission with
the timer reset to 0; each following mission phase calls the mission's
`loop` hook once and bumps the timer, and on iteration 1715 — the first
with `timer > MAX_ITERATION_COUNT = 600 / 0.05 / 7` — exactly one abort is
performed, clearing the mission; afterwards no further `loop` or `abort`
calls occur, so every trace of at least 1715 iterations contains exactly
1715 `loop` events and one final `abort` event. -/
theorem mission_budget (s : AUVState) (h : s.current_mission = none) :
    (start_mission 0 s).1.timer = 0 ∧
    (start_mission 0 s).1.current_mission = some s.nextMissionId ∧
    (∀ n, n ≤ 1714 →
      (missionTrace n (start_mission 0 s).1).1.current_mission
          = some s.nextMissionId ∧
      (missionTrace n (start_mission 0 s).1).1.timer = n ∧
      (missionTrace n (start_mission 0 s).1).2 =
        List.replicate n (Event.missionLoop s.nextMissionId)) ∧
    (∀ n, 1715 ≤ n →
      (missionTrace n (start_mission 0 s).1).1.current_mission = none ∧
      (missionTrace n (start_mission 0 s).1).2 =
        List.replicate 1714 (Event.missionLoop s.nextMissionId) ++
          [Event.missionLoop s.nextMissionId,
            Event.missionAbort s.nextMissionId]) := by
  have hs1m : (start_mission 0 s).1.current_mission = some s.nextMissionId :=
    rfl
  have hs1t : (start_mission 0 s).1.timer = 0 := rfl
  refine ⟨rfl, rfl, ?_, ?_⟩
  · intro n hn
    have htr := missionTrace_run s.nextMissionId n (start_mission 0 s).1 hs1m
      (by rw [hs1t]; omega)
    rw [htr]
    refine ⟨rfl, ?_, rfl⟩
    show (start_mission 0 s).1.timer + n = n
    rw [hs1t]
    exact Nat.zero_add n
  · intro n hn
    obtain ⟨d, rfl⟩ : ∃ d, n = 1714 + (d + 1) := ⟨n - 1715, by omega⟩
    rw [missionTrace_add 1714 (d + 1)]
    have htr := missionTrace_run s.nextMissionId 1714 (start_mission 0 s).1
      hs1m (by rw [hs1t])
    rw [htr]
    have hstep := missionPhase_last
      { (start_mission 0 s).1 with timer := (start_mission 0 s).1.timer + 1714 }
      s.nextMissionId hs1m
      (by
        show 1715 ≤ (start_mission 0 s).1.timer + 1714 + 1
        rw [hs1t])
    have hpeel : ∀ (j : ℕ) (u : AUVState), missionTrace (j + 1) u =
        ((missionTrace j (missionPhase u).1).1,
          (missionPhase u).2 ++ (missionTrace j (missionPhase u).1).2) :=
      fun j u => rfl
    rw [hpeel d]
    rw [show (({ (start_mission 0 s).1 with
          timer := (start_mission 0 s).1.timer + 1714 },
        List.replicate 1714 (Event.missionLoop s.nextMissionId)).1
          : AUVState)
        = { (start_mission 0 s).1 with
            timer := (start_mission 0 s).1.timer + 1714 } from rfl]
    rw [hstep]
    rw [missionTrace_none d _ rfl]
    exact ⟨rfl, by rw [List.append_nil]⟩

/-- Claim C7, witness: starting mission 0 on the concrete idle state resets
the timer, and a trace of 1715 iterations ends with the mission cleared. -/
theorem mission_budget_witness :
    (start_mission 0 sampleIdle).1.timer = 0 ∧
    (missionTrace 1715 (start_mission 0 sampleIdle).1).1.current_mission
      = none :=
  ⟨(mission_budget sampleIdle rfl).1,
    ((mission_budget sampleIdle rfl).2.2.2 1715 (by norm_num)).1⟩

end Nautilus
